import Mathlib

/-!
Verification of the GallupStopMotion session-and-playback controller.

Shallow embedding of:
- `src/frontend/stopmotion-ui/src/lib/backend.js` (URL resolution, session
  query parameter, API call URLs);
- `src/frontend/stopmotion-ui/src/StopMotionApp.jsx` (the thumbnail-sequence
  operations `handleCapture` / `handleUndo` / `handleResetAll` and the
  build/playback state driven by `handlePlay`);
- `ButtonsFive.ino` (the debounced five-button firmware loop).

Conventions: a JS array of thumbnails is a Lean `List Thumb`, most recent
first, exactly as the React state `thumbnails` is ordered.  Digital pin
levels are `Bool` with `HIGH = true` (idle, pulled up) and `LOW = false`
(pressed).  Arduino `unsigned long` arithmetic is `Nat` taken modulo `2^32`.
-/

namespace StopMotion

/-! ## backend.js: URL resolution and session-scoped endpoints

JS string primitives (`startsWith`, `includes`, the anchored case-insensitive
regex test, `encodeURIComponent`) are embedded structurally over the
character list `String.data` so that every definition evaluates by kernel
reduction. -/

/-- List-level prefix test: `charsStarts pat cs` holds when `pat` is an
initial segment of `cs` (the JS `String.prototype.startsWith`). -/
def charsStarts : List Char → List Char → Bool
  | [], _ => true
  | _ :: _, [] => false
  | p :: ps, c :: cs => p == c && charsStarts ps cs

/-- JS `s.startsWith(pat)`. -/
def strStarts (s pat : String) : Bool := charsStarts pat.data s.data

/-- ASCII lower-casing of one character, enough for the case-insensitive
scheme test below. -/
def lowerChar (c : Char) : Char :=
  if 65 ≤ c.toNat ∧ c.toNat ≤ 90 then Char.ofNat (c.toNat + 32) else c

/-- The anchored case-insensitive test of the scheme regex in `resolveUrl`
(`backend.js`): does `u` begin with `http://` or `https://`, ignoring case? -/
def matchesHttpScheme (u : String) : Bool :=
  charsStarts "http://".data (u.data.map lowerChar) ||
  charsStarts "https://".data (u.data.map lowerChar)

/-- JS `s.includes(c)` for a single character (used for `url.includes("?")`). -/
def strContainsChar (s : String) (c : Char) : Bool := s.data.any (fun a => a == c)

/-- Embedding of `resolveUrl` from `lib/backend.js`:
```
if (!u) return "";
if (/^https?:\/\//i.test(u)) return u;
if (!API_BASE) return u.startsWith("/") ? u : `/${u}`;
const path = u.startsWith("/") ? u : `/${u}`;
return `${API_BASE}${path}`;
```
`apiBase` is the module constant `API_BASE` (the env value with one trailing
slash stripped, see `stripTrailingSlash`). -/
def resolveUrl (apiBase u : String) : String :=
  if u = "" then ""
  else if matchesHttpScheme u then u
  else if apiBase = "" then (if strStarts u "/" then u else "/" ++ u)
  else apiBase ++ (if strStarts u "/" then u else "/" ++ u)

/-- Embedding of the `API_BASE` normalization `(env ?? "").replace(/\/$/, "")`:
strip one trailing slash. -/
def stripTrailingSlash (s : String) : String :=
  if s.data.getLast? = some '/' then String.mk s.data.dropLast else s

/-- Hexadecimal digit character (uppercase, as produced by JS
`encodeURIComponent`). -/
def hexDigit (n : Nat) : Char :=
  if n < 10 then Char.ofNat (48 + n) else Char.ofNat (55 + n)

/-- Bytes left unescaped by JS `encodeURIComponent`:
`A-Z a-z 0-9 - _ . ! ~ * ' ( )`. -/
def isUnescapedByte (b : Nat) : Bool :=
  (65 ≤ b && b ≤ 90) || (97 ≤ b && b ≤ 122) || (48 ≤ b && b ≤ 57) ||
  b = 45 || b = 95 || b = 46 || b = 33 || b = 126 || b = 42 ||
  b = 39 || b = 40 || b = 41

/-- UTF-8 encoding of one character as a list of byte values. -/
def utf8Bytes (c : Char) : List Nat :=
  let n := c.toNat
  if n < 128 then [n]
  else if n < 2048 then [192 + n / 64, 128 + n % 64]
  else if n < 65536 then [224 + n / 4096, 128 + (n / 64) % 64, 128 + n % 64]
  else [240 + n / 262144, 128 + (n / 4096) % 64, 128 + (n / 64) % 64, 128 + n % 64]

/-- Percent-encoding of one UTF-8 byte, as JS `encodeURIComponent` does. -/
def encodeByteChars (b : Nat) : List Char :=
  if isUnescapedByte b then [Char.ofNat b]
  else ['%', hexDigit (b / 16), hexDigit (b % 16)]

/-- Embedding of JS `encodeURIComponent`: percent-encode every UTF-8 byte
outside the unescaped set. -/
def encodeURIComponent (s : String) : String :=
  String.mk (List.flatten ((List.flatten (s.data.map utf8Bytes)).map encodeByteChars))

/-- Embedding of `withSession` from `lib/backend.js`:
```
const url = `${API_BASE || ""}${path}`;
const sep = url.includes("?") ? "&" : "?";
return `${url}${sep}session=${encodeURIComponent(sessionId)}`;
```
`sid` is the module constant `sessionId`, chosen once per page load by
`Math.random().toString(36).slice(2)`. -/
def withSession (apiBase sid path : String) : String :=
  let url := apiBase ++ path
  let sep := if strContainsChar url '?' then "&" else "?"
  url ++ sep ++ "session=" ++ encodeURIComponent sid

/-- URL used by `uploadFrame` (`POST` to `withSession("/api/frames")`). -/
def uploadFrameUrl (apiBase sid : String) : String :=
  withSession apiBase sid "/api/frames"

/-- URL used by `deleteLastFrame` (`DELETE` to `withSession("/api/frames/last")`). -/
def deleteLastFrameUrl (apiBase sid : String) : String :=
  withSession apiBase sid "/api/frames/last"

/-- URL used by `buildVideo` (`POST` to `withSession("/api/video")`). -/
def buildVideoUrl (apiBase sid : String) : String :=
  withSession apiBase sid "/api/video"

/-- URL used by the preferred (session-aware) path of `resetAll`
(`DELETE` to `withSession("/api/frames/all")`). -/
def resetAllPreferredUrl (apiBase sid : String) : String :=
  withSession apiBase sid "/api/frames/all"

/-! ## StopMotionApp.jsx: the local thumbnail sequence -/

/-- One entry of the React `thumbnails` state: `{ id, url }`. -/
structure Thumb where
  id : String
  url : String
deriving Repr, DecidableEq

/-- Optimistic half of `handleCapture`:
`setThumbnails((prev) => [{ id: tempId, url: localUrl }, ...prev].slice(0, 30))`. -/
def captureOptimistic (tempId localUrl : String) (prev : List Thumb) : List Thumb :=
  ((⟨tempId, localUrl⟩ : Thumb) :: prev).take 30

/-- Reconciliation half of `handleCapture`, run on upload success when the
response carries a `thumbnail_url`:
`setThumbnails((prev) => [{ id: data.id || tempId, url: resolved },
...prev.filter((t) => t.id !== tempId)].slice(0, 30))`. -/
def captureConfirm (tempId confirmedId resolvedUrl : String) (prev : List Thumb) : List Thumb :=
  ((⟨confirmedId, resolvedUrl⟩ : Thumb) :: prev.filter (fun t => t.id ≠ tempId)).take 30

/-- Local half of `handleUndo`: `setThumbnails((prev) => prev.slice(1))`. -/
def handleUndo (prev : List Thumb) : List Thumb :=
  prev.drop 1

/-- Upload response `{ id, thumbnail_url? }` returned by `uploadFrame`. -/
structure UploadResp where
  id : Option String
  thumbnail_url : Option String
deriving Repr, DecidableEq

/-- JS truthiness fallback `a || fallback` for an optional string field. -/
def jsOr (a : Option String) (fallback : String) : String :=
  match a with
  | some s => if s = "" then fallback else s
  | none => fallback

/-- Embedding of the state effects of one full `handleCapture` call, with the
network outcome passed in as `upload`.  Returns the new `thumbnails` list and
the `error` state after the call (the handler begins with `setError("")` and
its `catch` runs `setError(e.message || "Capture failed")`).  On success the
temp entry is replaced only when the response carries a `thumbnail_url`,
mirroring the `if (data?.thumbnail_url)` guard. -/
def handleCaptureRun (apiBase tempId localUrl : String)
    (upload : Except String UploadResp) (prev : List Thumb) :
    List Thumb × String :=
  let s1 := captureOptimistic tempId localUrl prev
  match upload with
  | .ok data =>
    match data.thumbnail_url with
    | some tu => (captureConfirm tempId (jsOr data.id tempId) (resolveUrl apiBase tu) s1, "")
    | none => (s1, "")
  | .error msg => (s1, if msg = "" then "Capture failed" else msg)

/-- Frame sequence after `k` consecutive successful captures starting from an
empty session: capture `i` first prepends the pending entry `⟨τ i, u i⟩`
(`captureOptimistic`), then its upload succeeds and `captureConfirm` installs
the backend-confirmed entry `f i`. -/
def capturesK (f : Nat → Thumb) (τ u : Nat → String) : Nat → List Thumb
  | 0 => []
  | k + 1 =>
    captureConfirm (τ k) (f k).id (f k).url
      (captureOptimistic (τ k) (u k) (capturesK f τ u k))

/-! ## StopMotionApp.jsx: build/playback state machine

The playback-relevant React state together with a count of outstanding
`buildVideo` network calls, driven by the events the component can observe.
`handlePlay` is only reachable through the Play button, which is rendered
with `disabled={loadingPlayback}`, so a click while a build is loading is
dropped by the browser; `handleResetAll` clears `thumbnails` and calls the
backend but touches none of the playback fields. -/

/-- Playback-relevant component state: `thumbnails`, `loadingPlayback`,
`isPlaying`, `playbackSrc`, `error`, plus the number of `buildVideo` calls
currently awaiting a response (`pendingBuilds`, the model's bookkeeping of
the suspended `handlePlay` invocations). -/
structure AppState where
  thumbnails : List Thumb
  loadingPlayback : Bool
  isPlaying : Bool
  playbackSrc : String
  error : String
  pendingBuilds : Nat
deriving Repr, DecidableEq

/-- Initial component state (`useState` initializers). -/
def initialAppState : AppState :=
  { thumbnails := [], loadingPlayback := false, isPlaying := false,
    playbackSrc := "", error := "", pendingBuilds := 0 }

/-- Events driving the playback state machine.  `buildOk url now` is the
resumption of a suspended `handlePlay` whose `buildVideo` call returned
`{ video_url: url }`, with `now` the value of `Date.now()` at resumption;
`buildFail` is the resumption through the `catch` block (network failure,
non-ok status, or a later playback error inside the `try`). -/
inductive UIEvent where
  | clickPlay
  | buildOk (video_url : String) (now : Nat)
  | buildFail
  | clickReset
  | clickUndo
deriving Repr, DecidableEq

/-- One step of the playback state machine.

* `clickPlay`: the Play button is `disabled={loadingPlayback}`, so the click
  is dropped when a build is loading; otherwise `handlePlay` starts: it sets
  `loadingPlayback` to `true`, clears `error`, and issues one `buildVideo`
  call.
* `buildOk u now`: continuation of `handlePlay` after `buildVideo` resolves
  (only meaningful when a call is outstanding).  An empty `video_url` throws
  (`"No video_url returned"`) into the `catch`; otherwise
  `resolveUrl(video_url) + `?t=${Date.now()}`` is stored as `playbackSrc` and
  `isPlaying` is set; the `finally` clears `loadingPlayback`.
* `buildFail`: the `catch` of `handlePlay` (`setError("Playback failed")`,
  `setIsPlaying(false)`, `setPlaybackSrc("")`) followed by the `finally`.
* `clickReset`: `handleResetAll` clears `thumbnails` (the backend call
  changes no component state).
* `clickUndo`: `handleUndo` drops the head thumbnail. -/
def uiStep (apiBase : String) (s : AppState) : UIEvent → AppState
  | .clickPlay =>
    if s.loadingPlayback then s
    else { s with loadingPlayback := true, error := "",
                  pendingBuilds := s.pendingBuilds + 1 }
  | .buildOk u now =>
    if s.pendingBuilds = 0 then s
    else if u = "" then
      { s with error := "Playback failed", isPlaying := false, playbackSrc := "",
               loadingPlayback := false, pendingBuilds := s.pendingBuilds - 1 }
    else
      { s with playbackSrc := resolveUrl apiBase u ++ "?t=" ++ toString now,
               isPlaying := true, loadingPlayback := false,
               pendingBuilds := s.pendingBuilds - 1 }
  | .buildFail =>
    if s.pendingBuilds = 0 then s
    else
      { s with error := "Playback failed", isPlaying := false, playbackSrc := "",
               loadingPlayback := false, pendingBuilds := s.pendingBuilds - 1 }
  | .clickReset => { s with thumbnails := [] }
  | .clickUndo => { s with thumbnails := handleUndo s.thumbnails }

/-- Run the playback state machine over a list of events. -/
def uiRun (apiBase : String) (s : AppState) : List UIEvent → AppState
  | [] => s
  | e :: es => uiRun apiBase (uiStep apiBase s e) es

/-! ## ButtonsFive.ino: the debounced button loop

`HIGH = true` (idle, `INPUT_PULLUP`), `LOW = false` (pressed). -/

/-- Width of Arduino `unsigned long`: `millis()` values and the
`now - lastChangeMs` subtraction in `loop` live modulo `2^32`. -/
def U32 : Nat := 4294967296

/-- Unsigned 32-bit subtraction, as computed by `now - b.lastChangeMs` in
`loop` on `unsigned long` operands (both `< 2^32`). -/
def u32sub (a b : Nat) : Nat := (a + U32 - b) % U32

/-- The per-button state of `ButtonsFive.ino`:
`{ pin, command, stableState, lastStableState, lastChangeMs, lastRaw }`. -/
structure Button where
  pin : Nat
  command : String
  stableState : Bool
  lastStableState : Bool
  lastChangeMs : Nat
  lastRaw : Bool
deriving Repr, DecidableEq

/-- `DEBOUNCE_MS = 25`. -/
def DEBOUNCE_MS : Nat := 25

/-- One iteration of the body of `loop` for one button, given the time
`now = millis()` and the instantaneous read `raw = digitalRead(b.pin)`.
Returns the updated button state and the lines printed by this iteration:

```
if (raw != b.lastRaw) { b.lastChangeMs = now; b.lastRaw = raw; }
if ((now - b.lastChangeMs) >= DEBOUNCE_MS && raw != b.stableState) {
  b.lastStableState = b.stableState;
  b.stableState = raw;
  if (b.lastStableState == HIGH && b.stableState == LOW) {
    Serial.println(b.command);
  }
}
``` -/
def debounceStep (now : Nat) (raw : Bool) (b : Button) : Button × List String :=
  let b1 := if raw ≠ b.lastRaw then { b with lastChangeMs := now, lastRaw := raw } else b
  if DEBOUNCE_MS ≤ u32sub now b1.lastChangeMs ∧ raw ≠ b1.stableState then
    let b2 := { b1 with lastStableState := b1.stableState, stableState := raw }
    if b2.lastStableState = true ∧ b2.stableState = false then (b2, [b2.command])
    else (b2, [])
  else (b1, [])

/-- Iterate `debounceStep` over a list of polls `(millis reading, raw level)`,
collecting every printed command line in order. -/
def runButton (b : Button) : List (Nat × Bool) → Button × List String
  | [] => (b, [])
  | p :: ps =>
    let r1 := debounceStep p.1 p.2 b
    let r2 := runButton r1.1 ps
    (r2.1, r1.2 ++ r2.2)

/-- A poll `(t, raw)` lands inside the debounce window: fewer than
`DEBOUNCE_MS` milliseconds have passed since the last recorded raw change
(after the raw-change bookkeeping of this very poll). -/
def withinWindow (t : Nat) (raw : Bool) (b : Button) : Bool :=
  decide (u32sub t (if raw ≠ b.lastRaw then t else b.lastChangeMs) < DEBOUNCE_MS)

/-- A poll sequence is a rapid burst from state `b` when every poll lands
inside the debounce window of the state reached before it: consecutive raw
transitions (and the polls around them) are separated by less than
`DEBOUNCE_MS`. -/
def rapidBurst (b : Button) : List (Nat × Bool) → Bool
  | [] => true
  | p :: ps => withinWindow p.1 p.2 b && rapidBurst (debounceStep p.1 p.2 b).1 ps

/-- Polls that keep the line low (button held pressed). -/
def holdLow (ts : List Nat) : List (Nat × Bool) := ts.map (fun t => (t, false))

/-- Number of raw press transitions (`HIGH` to `LOW`) in a raw-level
sequence, given the raw level seen before it. -/
def pressCount (prev : Bool) : List Bool → Nat
  | [] => 0
  | r :: rs => (if prev = true ∧ r = false then 1 else 0) + pressCount r rs

/-! ## Auxiliary definitions for the claims -/

/-- Invariant tying the Play button's `disabled={loadingPlayback}` guard to
the number of outstanding `buildVideo` calls: at most one build is in
flight, and none is in flight unless the button is disabled. -/
def BuildInv (s : AppState) : Prop :=
  s.pendingBuilds ≤ 1 ∧ (s.loadingPlayback = false → s.pendingBuilds = 0)

/-- The individual `setThumbnails` updates occurring in `StopMotionApp.jsx`
(both halves of `handleCapture` may interleave with other operations under
concurrent captures, so they are separate updates here): the optimistic
prepend, the upload-success reconciliation, `handleUndo`, `handleResetAll`. -/
inductive ThumbUpdate where
  | optimistic (tempId localUrl : String)
  | confirm (tempId confirmedId resolvedUrl : String)
  | undo
  | reset
deriving Repr, DecidableEq

/-- Apply one `setThumbnails` update to the local thumbnail sequence. -/
def applyUpdate (s : List Thumb) : ThumbUpdate → List Thumb
  | .optimistic t u => captureOptimistic t u s
  | .confirm tid c r => captureConfirm tid c r s
  | .undo => handleUndo s
  | .reset => []

/-- Apply a sequence of `setThumbnails` updates in order. -/
def applyUpdates (s : List Thumb) : List ThumbUpdate → List Thumb
  | [] => s
  | up :: ups => applyUpdates (applyUpdate s up) ups

/-- Modelled from the spec: the frame-store backend is not under `src/`.
Per §6 of the spec, `POST /api/frames` stores each uploaded frame and
nothing in the backend contract truncates the stored sequence, so after `K`
uploads the backend retains all `K` frames (identified here by their
assigned ids `fid 0, …, fid (K-1)`). -/
def backendStore (fid : Nat → String) (K : Nat) : List String :=
  (List.range K).map fid

/-! ## Debounce lemmas -/

/-- A poll inside the debounce window changes only the raw-tracking fields:
no stable transition is accepted and nothing is printed. -/
theorem debounceStep_no_accept {t : Nat} {raw : Bool} {b : Button}
    (h : withinWindow t raw b = true) :
    debounceStep t raw b =
      (if raw ≠ b.lastRaw then { b with lastChangeMs := t, lastRaw := raw } else b, []) := by
  obtain ⟨pin, cmd, st, lst, lc, lr⟩ := b
  unfold withinWindow at h
  rw [decide_eq_true_iff] at h
  unfold debounceStep
  cases raw <;> cases lr <;> simp_all

/-- Over a rapid burst the loop prints nothing and the debounced fields
(`stableState`, `lastStableState`, `command`) are untouched. -/
theorem runButton_rapid {b : Button} {ps : List (Nat × Bool)}
    (h : rapidBurst b ps = true) :
    (runButton b ps).2 = []
    ∧ (runButton b ps).1.stableState = b.stableState
    ∧ (runButton b ps).1.lastStableState = b.lastStableState
    ∧ (runButton b ps).1.command = b.command := by
  induction ps generalizing b with
  | nil => exact ⟨rfl, rfl, rfl, rfl⟩
  | cons p ps ih =>
    unfold rapidBurst at h
    rw [Bool.and_eq_true] at h
    have hstep := debounceStep_no_accept h.1
    have ihh := ih (b := (debounceStep p.1 p.2 b).1) h.2
    have hfields : (debounceStep p.1 p.2 b).1.stableState = b.stableState
        ∧ (debounceStep p.1 p.2 b).1.lastStableState = b.lastStableState
        ∧ (debounceStep p.1 p.2 b).1.command = b.command := by
      rw [hstep]
      split_ifs <;> exact ⟨rfl, rfl, rfl⟩
    have hout : (debounceStep p.1 p.2 b).2 = [] := by rw [hstep]
    refine ⟨?_, ?_, ?_, ?_⟩ <;>
      simp only [runButton, hout, List.nil_append, ihh.1, ihh.2.1, ihh.2.2.1, ihh.2.2.2,
        hfields.1, hfields.2.1, hfields.2.2]

/-- When the line has already been low since the last recorded change and the
debounce window has elapsed, the poll accepts the press: the stable level
goes `HIGH → LOW` and the button's command is printed once. -/
theorem debounceStep_accept {t : Nat} {b : Button}
    (hst : b.stableState = true) (hlr : b.lastRaw = false)
    (he : DEBOUNCE_MS ≤ u32sub t b.lastChangeMs) :
    debounceStep t false b =
      ({ b with lastStableState := true, stableState := false }, [b.command]) := by
  obtain ⟨pin, cmd, st, lst, lc, lr⟩ := b
  simp only at hst hlr he
  subst hst hlr
  unfold debounceStep
  simp [he]

/-- A poll that merely re-reads the current stable and raw level changes
nothing and prints nothing. -/
theorem debounceStep_steady {t : Nat} {raw : Bool} {b : Button}
    (h1 : raw = b.lastRaw) (h2 : raw = b.stableState) :
    debounceStep t raw b = (b, []) := by
  obtain ⟨pin, cmd, st, lst, lc, lr⟩ := b
  simp only at h1 h2
  subst h1 h2
  unfold debounceStep
  simp

/-- Holding the line low after a press has stabilized low produces nothing. -/
theorem runButton_holdLow {b : Button} {ts : List Nat}
    (h1 : b.lastRaw = false) (h2 : b.stableState = false) :
    runButton b (holdLow ts) = (b, []) := by
  induction ts with
  | nil => rfl
  | cons t ts ih =>
    unfold holdLow at ih ⊢
    simp only [List.map_cons]
    unfold runButton
    rw [debounceStep_steady h1.symm h2.symm]
    simpa using ih

/-- Running the loop over a concatenation of poll lists. -/
theorem runButton_append (b : Button) (xs ys : List (Nat × Bool)) :
    runButton b (xs ++ ys) =
      ((runButton (runButton b xs).1 ys).1,
        (runButton b xs).2 ++ (runButton (runButton b xs).1 ys).2) := by
  induction xs generalizing b with
  | nil => simp [runButton]
  | cons x xs ih => simp [runButton, ih, List.append_assoc]

/-! ## Claim theorems: debounce (C5, C6) -/

/-- C5: one iteration of the debounce loop prints the button's command token
exactly when the debounced (stable) level transitions from idle `HIGH` to
pressed `LOW`, which happens exactly when the raw level has stayed unchanged
for at least `DEBOUNCE_MS = 25` milliseconds (as recorded by `lastChangeMs`,
including this poll's raw-change bookkeeping) and differs from the current
stable level.  The stable level changes only under that same window
condition (never merely because the raw level changed), and the
pressed-to-released (`LOW` to `HIGH`) stable transition, i.e. any poll with
`raw = HIGH`, never prints. -/
theorem claim5_press_event_on_stable_high_to_low (b : Button) (now : Nat) (raw : Bool) :
    (((debounceStep now raw b).1.stableState ≠ b.stableState) ↔
      (DEBOUNCE_MS ≤ u32sub now (if raw ≠ b.lastRaw then now else b.lastChangeMs) ∧
        raw ≠ b.stableState))
    ∧ ((debounceStep now raw b).2 = [b.command] ↔
      (DEBOUNCE_MS ≤ u32sub now (if raw ≠ b.lastRaw then now else b.lastChangeMs) ∧
        b.stableState = true ∧ raw = false))
    ∧ ((debounceStep now raw b).2 = [] ∨ (debounceStep now raw b).2 = [b.command])
    ∧ (raw = true → (debounceStep now raw b).2 = []) := by
  obtain ⟨pin, cmd, st, lst, lc, lr⟩ := b
  unfold debounceStep
  cases raw <;> cases st <;> cases lr <;>
    simp only [ne_eq, not_true_eq_false, not_false_eq_true, if_true, if_false,
      Bool.true_eq_false, Bool.false_eq_true, and_true, and_false, false_and, true_and,
      if_neg, reduceCtorEq] <;>
    first
      | (split_ifs <;> simp_all)
      | simp_all

/-- C6: a rapid burst of simulated presses — every raw transition inside the
debounce window, `N ≥ 1` press (`HIGH → LOW`) transitions in total, ending
with the line low — followed by the final press settling (a poll at least
`DEBOUNCE_MS` after the last recorded change, then the line held low) prints
the button's command token exactly once for the whole sequence. -/
theorem claim6_rapid_burst_emits_single_token (b0 : Button) (ps : List (Nat × Bool))
    (tStar : Nat) (rest : List Nat) (N : Nat)
    (hstable : b0.stableState = true)
    (hrapid : rapidBurst b0 ps = true)
    (hlow : (runButton b0 ps).1.lastRaw = false)
    (hsettle : DEBOUNCE_MS ≤ u32sub tStar (runButton b0 ps).1.lastChangeMs)
    (hN : pressCount b0.lastRaw (ps.map Prod.snd) = N) (hN1 : 1 ≤ N) :
    (runButton b0 (ps ++ (tStar, false) :: holdLow rest)).2 = [b0.command] := by
  obtain ⟨hout, hst, hlst, hcmd⟩ := runButton_rapid hrapid
  have hacc := debounceStep_accept (b := (runButton b0 ps).1)
    (hst.trans hstable) hlow hsettle
  have hhold := @runButton_holdLow
    ({ (runButton b0 ps).1 with lastStableState := true, stableState := false } : Button)
    rest hlow rfl
  have hmid : runButton (runButton b0 ps).1 ((tStar, false) :: holdLow rest)
      = (({ (runButton b0 ps).1 with lastStableState := true, stableState := false} : Button),
         [(runButton b0 ps).1.command]) := by
    conv_lhs => unfold runButton
    rw [hacc]
    simp only [hhold, List.append_nil]
  rw [runButton_append, hmid, hout, hcmd]
  rfl

/-- C6 witness: two rapid presses at 5 ms and 15 ms (raw transitions 5, 10,
15 — all gaps under 25 ms), the second press held; the settle poll at 40 ms
prints `capture` once and holding further prints nothing more. -/
theorem claim6_witness :
    rapidBurst ⟨2, "capture", true, true, 0, true⟩ [(5, false), (10, true), (15, false)] = true
    ∧ pressCount true [false, true, false] = 2
    ∧ (runButton ⟨2, "capture", true, true, 0, true⟩
        ([(5, false), (10, true), (15, false)] ++ (40, false) :: holdLow [50, 60])).2
      = ["capture"] :=
  ⟨by decide, by decide,
    claim6_rapid_burst_emits_single_token ⟨2, "capture", true, true, 0, true⟩
      [(5, false), (10, true), (15, false)] 40 [50, 60] 2
      (by decide) (by decide) (by decide) (by decide) (by decide) (by decide)⟩

/-! ## Capture-sequence lemmas (C1, C3) -/

/-- Every entry of the sequence after `k` successful captures is one of the
backend-confirmed frames `f 0, …, f (k-1)`: the pending placeholder of each
capture is filtered out by its own confirmation step. -/
theorem capturesK_mem {f : Nat → Thumb} {τ u : Nat → String} :
    ∀ {k : Nat} {x : Thumb}, x ∈ capturesK f τ u k → ∃ j, j < k ∧ x = f j := by
  intro k
  induction k with
  | zero => intro x hx; simp [capturesK] at hx
  | succ k ih =>
    intro x hx
    unfold capturesK captureConfirm at hx
    have hx' := List.mem_of_mem_take hx
    rcases List.mem_cons.mp hx' with h | h
    · exact ⟨k, Nat.lt_succ_self k, by rw [h]⟩
    · have h2 := List.mem_filter.mp h
      have h3 := List.mem_of_mem_take (List.mem_of_mem_filter h)
      rcases List.mem_cons.mp (by
          unfold captureOptimistic at h2
          exact List.mem_of_mem_take h2.1) with h4 | h4
      · exfalso
        have : x.id = τ k := by rw [h4]
        have h5 := h2.2
        simp only [decide_eq_true_eq] at h5
        exact h5 this
      · obtain ⟨j, hj, hx⟩ := ih h4
        exact ⟨j, Nat.lt_succ_of_lt hj, hx⟩

/-- When `τ k` is fresh for every confirmed frame, the `(k+1)`-st successful
capture reduces to removing its own placeholder and prepending the confirmed
frame: the sequence becomes `f k` in front of the previous sequence truncated
to 29 entries. -/
theorem capturesK_succ {f : Nat → Thumb} {τ u : Nat → String} {k : Nat}
    (hf : ∀ j, j < k → τ k ≠ (f j).id) :
    capturesK f τ u (k + 1) = f k :: (capturesK f τ u k).take 29 := by
  have hfilter : ((capturesK f τ u k).take 29).filter (fun t => t.id ≠ τ k)
      = (capturesK f τ u k).take 29 := by
    rw [List.filter_eq_self]
    intro x hx
    obtain ⟨j, hj, hxj⟩ := capturesK_mem (List.mem_of_mem_take hx)
    simp only [decide_eq_true_eq, hxj]
    exact fun hc => hf j hj hc.symm
  have h1 : capturesK f τ u (k + 1)
      = captureConfirm (τ k) (f k).id (f k).url
          (captureOptimistic (τ k) (u k) (capturesK f τ u k)) := rfl
  have h2 : captureOptimistic (τ k) (u k) (capturesK f τ u k)
      = ⟨τ k, u k⟩ :: (capturesK f τ u k).take 29 := by
    unfold captureOptimistic
    rw [List.take_succ_cons]
  have h3 : captureConfirm (τ k) (f k).id (f k).url
        ((⟨τ k, u k⟩ : Thumb) :: (capturesK f τ u k).take 29)
      = (f k :: ((capturesK f τ u k).take 29).filter (fun t => t.id ≠ τ k)).take 30 := by
    unfold captureConfirm
    rw [List.filter_cons]
    simp
  rw [h1, h2, h3, hfilter, List.take_succ_cons, List.take_take, min_self]

/-- The sequence after `k` successful captures with fresh placeholders holds
at most `k` entries. -/
theorem capturesK_length_le {f : Nat → Thumb} {τ u : Nat → String} :
    ∀ {k : Nat}, (∀ i, i < k → ∀ j, j < k → τ i ≠ (f j).id) →
      (capturesK f τ u k).length ≤ k := by
  intro k
  induction k with
  | zero => intro _; simp [capturesK]
  | succ k ih =>
    intro hf
    rw [capturesK_succ (fun j hj => hf k (Nat.lt_succ_self k) j (Nat.lt_succ_of_lt hj))]
    have h1 := ih (fun i hi j hj =>
      hf i (Nat.lt_succ_of_lt hi) j (Nat.lt_succ_of_lt hj))
    simp only [List.length_cons, List.length_take]
    omega

/-! ## Claim theorems: the local frame sequence (C1, C3, C4) -/

/-- C1: after `K ≥ 1` consecutive successful captures (placeholder ids fresh
with respect to the backend-assigned ids), the sequence's head is the `K`-th
(most recent) confirmed frame; `handleUndo` removes exactly that head and
returns the tail unchanged — for `K ≤ 30` exactly the sequence after the
first `K−1` captures; and an undo on an empty sequence leaves it empty. -/
theorem claim1_undo_removes_most_recent (f : Nat → Thumb) (τ u : Nat → String) (K : Nat)
    (hfresh : ∀ i, i < K → ∀ j, j < K → τ i ≠ (f j).id) (hK : 1 ≤ K) :
    capturesK f τ u K = f (K - 1) :: (capturesK f τ u (K - 1)).take 29
    ∧ handleUndo (capturesK f τ u K) = (capturesK f τ u (K - 1)).take 29
    ∧ (K ≤ 30 → handleUndo (capturesK f τ u K) = capturesK f τ u (K - 1))
    ∧ handleUndo ([] : List Thumb) = [] := by
  obtain ⟨k, rfl⟩ : ∃ k, K = k + 1 := ⟨K - 1, by omega⟩
  have hsucc := capturesK_succ (f := f) (τ := τ) (u := u) (k := k)
    (fun j hj => hfresh k (Nat.lt_succ_self k) j (Nat.lt_succ_of_lt hj))
  have hlen : (capturesK f τ u k).length ≤ k :=
    capturesK_length_le (fun i hi j hj =>
      hfresh i (Nat.lt_succ_of_lt hi) j (Nat.lt_succ_of_lt hj))
  simp only [Nat.add_sub_cancel]
  refine ⟨hsucc, by rw [hsucc]; rfl, fun h30 => ?_, rfl⟩
  rw [hsucc]
  show (capturesK f τ u k).take 29 = capturesK f τ u k
  exact List.take_of_length_le (by omega)

/-- C1 witness: three successful captures with backend ids `f0, f1, f2` and
placeholders `local-0, local-1, local-2`; undo drops exactly the third
confirmed frame and returns the two-capture sequence. -/
theorem claim1_witness :
    handleUndo (capturesK (fun j => ⟨"f" ++ toString j, "t"⟩)
        (fun i => "local-" ++ toString i) (fun _ => "b") 3)
      = capturesK (fun j => ⟨"f" ++ toString j, "t"⟩)
          (fun i => "local-" ++ toString i) (fun _ => "b") 2 :=
  (claim1_undo_removes_most_recent (fun j => ⟨"f" ++ toString j, "t"⟩)
    (fun i => "local-" ++ toString i) (fun _ => "b") 3
    (by decide) (by decide)).2.2.1 (by decide)

/-- C3 counterexample: two concurrent captures.  Capture A's placeholder
`local-1` is prepended, capture B's placeholder `local-2` is prepended on top
of it, so A's placeholder sits at position 1.  When A's upload confirms with
backend id `7`, `handleCapture` filters the placeholder out by id and
prepends the confirmed frame: it lands at position 0, not at the
placeholder's position 1.  Reconciliation is therefore not by matching the
placeholder's position. -/
theorem claim3_counterexample :
    captureConfirm "local-1" "7" "/frames/7.jpg"
        [⟨"local-2", "blob:b"⟩, ⟨"local-1", "blob:a"⟩]
      = [⟨"7", "/frames/7.jpg"⟩, ⟨"local-2", "blob:b"⟩]
    ∧ captureConfirm "local-1" "7" "/frames/7.jpg"
        [⟨"local-2", "blob:b"⟩, ⟨"local-1", "blob:a"⟩]
      ≠ [⟨"local-2", "blob:b"⟩, ⟨"7", "/frames/7.jpg"⟩] := by
  exact ⟨by decide, by decide⟩

/-- C3 (amended): `captureFrame` prepends the locally-referenced pending
frame at the front immediately; on upload success it removes the placeholder
by id match and prepends the backend-confirmed frame at the front (truncated
to 30) — so when no other capture intervened (the placeholder is still the
head and its temp id is fresh in the rest), the confirmed frame takes the
placeholder's (front) position. -/
theorem claim3_confirm_prepends_by_id (tempId localUrl cid curl : String)
    (prev : List Thumb) (hfresh : ∀ x ∈ prev, x.id ≠ tempId) :
    captureOptimistic tempId localUrl prev = (⟨tempId, localUrl⟩ :: prev).take 30
    ∧ (∀ s : List Thumb, captureConfirm tempId cid curl s
        = ((⟨cid, curl⟩ : Thumb) :: s.filter (fun t => t.id ≠ tempId)).take 30)
    ∧ captureConfirm tempId cid curl (captureOptimistic tempId localUrl prev)
        = ⟨cid, curl⟩ :: prev.take 29 := by
  refine ⟨rfl, fun s => rfl, ?_⟩
  have h2 : captureOptimistic tempId localUrl prev
      = ⟨tempId, localUrl⟩ :: prev.take 29 := by
    unfold captureOptimistic
    rw [List.take_succ_cons]
  have hfilter : (prev.take 29).filter (fun t => t.id ≠ tempId) = prev.take 29 := by
    rw [List.filter_eq_self]
    intro x hx
    simp only [decide_eq_true_eq]
    exact hfresh x (List.mem_of_mem_take hx)
  rw [h2]
  unfold captureConfirm
  rw [List.filter_cons]
  simp only [decide_eq_true_eq, ne_eq, not_true_eq_false, Bool.false_eq_true, if_false,
    decide_eq_false_iff_not]
  rw [hfilter, List.take_succ_cons, List.take_take, min_self]

/-- C3 witness: a fresh placeholder over one existing confirmed frame is
replaced in place at the front. -/
theorem claim3_witness :
    captureConfirm "local-9" "42" "/frames/42.jpg"
        (captureOptimistic "local-9" "blob:x" [⟨"5", "/frames/5.jpg"⟩])
      = [⟨"42", "/frames/42.jpg"⟩, ⟨"5", "/frames/5.jpg"⟩] :=
  ((claim3_confirm_prepends_by_id "local-9" "blob:x" "42" "/frames/42.jpg"
    [⟨"5", "/frames/5.jpg"⟩] (by decide)).2.2).trans (by decide)

/-- C4: when the upload step of `handleCapture` fails, the optimistic pending
entry is left in place (the thumbnail list is exactly what the optimistic
update produced, with the pending entry still at its front) and a nonempty
error message is recorded through the error surface (`setError`), the
exception having been caught rather than rethrown. -/
theorem claim4_upload_failure_keeps_optimistic (apiBase tempId localUrl msg : String)
    (prev : List Thumb) :
    (handleCaptureRun apiBase tempId localUrl (.error msg) prev).1
        = captureOptimistic tempId localUrl prev
    ∧ (handleCaptureRun apiBase tempId localUrl (.error msg) prev).1.head?
        = some ⟨tempId, localUrl⟩
    ∧ (⟨tempId, localUrl⟩ : Thumb) ∈ (handleCaptureRun apiBase tempId localUrl (.error msg) prev).1
    ∧ (handleCaptureRun apiBase tempId localUrl (.error msg) prev).2 ≠ "" := by
  have hfst : (handleCaptureRun apiBase tempId localUrl (.error msg) prev).1
      = ⟨tempId, localUrl⟩ :: prev.take 29 := by
    show captureOptimistic tempId localUrl prev = _
    unfold captureOptimistic
    rw [List.take_succ_cons]
  refine ⟨rfl, by rw [hfst]; rfl, by rw [hfst]; exact List.mem_cons_self _ _, ?_⟩
  show (if msg = "" then "Capture failed" else msg) ≠ ""
  split_ifs with h
  · decide
  · exact h

/-! ## Claim theorems: build/playback state machine (C2, C7, C8) -/

/-- One step of the playback machine preserves `BuildInv`. -/
theorem uiStep_buildInv (apiBase : String) {s : AppState} {e : UIEvent}
    (h : BuildInv s) : BuildInv (uiStep apiBase s e) := by
  obtain ⟨h1, h2⟩ := h
  cases e with
  | clickPlay =>
    simp only [uiStep]
    split_ifs with hl
    · exact ⟨h1, h2⟩
    · have h0 : s.pendingBuilds = 0 := h2 (by revert hl; cases s.loadingPlayback <;> simp)
      exact ⟨by simp [h0], by simp⟩
  | buildOk u now =>
    simp only [uiStep]
    split_ifs with hp hu
    · exact ⟨h1, h2⟩
    · exact ⟨by simp only; omega, fun _ => by simp only; omega⟩
    · exact ⟨by simp only; omega, fun _ => by simp only; omega⟩
  | buildFail =>
    simp only [uiStep]
    split_ifs with hp
    · exact ⟨h1, h2⟩
    · exact ⟨by simp only; omega, fun _ => by simp only; omega⟩
  | clickReset => exact ⟨h1, h2⟩
  | clickUndo => exact ⟨h1, h2⟩

/-- Any run of the playback machine from an invariant state stays in the
invariant. -/
theorem uiRun_buildInv (apiBase : String) (es : List UIEvent) (s : AppState)
    (h : BuildInv s) : BuildInv (uiRun apiBase s es) := by
  induction es generalizing s with
  | nil => exact h
  | cons e es ih => exact ih _ (uiStep_buildInv apiBase h)

/-- C2: along every event sequence from the initial state at most one
`buildVideo` call is outstanding, and a Play click that arrives while a
build is loading (`loadingPlayback = true`, the button is rendered
`disabled`) leaves the state unchanged — the request is dropped, not
queued. -/
theorem claim2_at_most_one_build_in_flight (apiBase : String) (es : List UIEvent) :
    (uiRun apiBase initialAppState es).pendingBuilds ≤ 1
    ∧ (∀ s : AppState, s.loadingPlayback = true →
        uiStep apiBase s UIEvent.clickPlay = s) := by
  constructor
  · exact (uiRun_buildInv apiBase es initialAppState ⟨Nat.zero_le 1, fun _ => rfl⟩).1
  · intro s hs
    simp only [uiStep]
    rw [if_pos hs]

/-- C2 witness: a double Play click issues one build; the second click while
loading is a no-op. -/
theorem claim2_witness :
    (uiRun "" initialAppState
        [UIEvent.clickPlay, UIEvent.clickPlay, UIEvent.buildFail]).pendingBuilds ≤ 1
    ∧ uiStep "" (uiRun "" initialAppState [UIEvent.clickPlay]) UIEvent.clickPlay
        = uiRun "" initialAppState [UIEvent.clickPlay] :=
  ⟨(claim2_at_most_one_build_in_flight ""
      [UIEvent.clickPlay, UIEvent.clickPlay, UIEvent.buildFail]).1,
    (claim2_at_most_one_build_in_flight "" []).2
      (uiRun "" initialAppState [UIEvent.clickPlay]) (by decide)⟩

/-- C7: from idle, a Play click enters Building (`loadingPlayback`), and a
successful build response with a nonempty `video_url` enters Playing with
`playbackSrc = resolveUrl(video_url) ++ "?t=" ++ Date.now()` — the resolved
locator with the cache-busting query parameter appended; in particular for
the relative path `/videos/abc.mp4` under the proxy configuration
(`API_BASE = ""`) the playback source is `/videos/abc.mp4?t=<now>`. -/
theorem claim7_build_success_cache_busted_playing (apiBase u : String) (ts : Nat)
    (hu : u ≠ "") :
    (uiStep apiBase initialAppState UIEvent.clickPlay).loadingPlayback = true
    ∧ (uiStep apiBase initialAppState UIEvent.clickPlay).isPlaying = false
    ∧ (uiStep apiBase (uiStep apiBase initialAppState UIEvent.clickPlay)
        (UIEvent.buildOk u ts)).isPlaying = true
    ∧ (uiStep apiBase (uiStep apiBase initialAppState UIEvent.clickPlay)
        (UIEvent.buildOk u ts)).playbackSrc
        = resolveUrl apiBase u ++ "?t=" ++ toString ts
    ∧ (uiStep "" (uiStep "" initialAppState UIEvent.clickPlay)
        (UIEvent.buildOk "/videos/abc.mp4" ts)).playbackSrc
        = "/videos/abc.mp4?t=" ++ toString ts := by
  have hstep : ∀ (ab v : String), v ≠ "" →
      uiStep ab (uiStep ab initialAppState UIEvent.clickPlay) (UIEvent.buildOk v ts)
        = { thumbnails := []
            loadingPlayback := false
            isPlaying := true
            playbackSrc := resolveUrl ab v ++ "?t=" ++ toString ts
            error := ""
            pendingBuilds := 0 } := by
    intro ab v hv
    have hs1 : uiStep ab initialAppState UIEvent.clickPlay
        = { thumbnails := []
            loadingPlayback := true
            isPlaying := false
            playbackSrc := ""
            error := ""
            pendingBuilds := 1 } := rfl
    rw [hs1]
    simp only [uiStep]
    rw [if_neg (by simp), if_neg hv]
  refine ⟨rfl, rfl, by rw [hstep apiBase u hu], by rw [hstep apiBase u hu], ?_⟩
  rw [hstep "" "/videos/abc.mp4" (by decide)]
  show resolveUrl "" "/videos/abc.mp4" ++ "?t=" ++ toString ts
      = "/videos/abc.mp4?t=" ++ toString ts
  have hres : resolveUrl "" "/videos/abc.mp4" = "/videos/abc.mp4" := by decide
  rw [hres, String.append_assoc]
  rfl

/-- C7 witness: the scenario of §8 of the spec with `Date.now() = 1234`. -/
theorem claim7_witness :
    (uiStep "" (uiStep "" initialAppState UIEvent.clickPlay)
        (UIEvent.buildOk "/videos/abc.mp4" 1234)).playbackSrc
      = "/videos/abc.mp4?t=1234" :=
  ((claim7_build_success_cache_busted_playing "" "/videos/abc.mp4" 1234
    (by decide)).2.2.2.2).trans (by decide)

/-- C8 counterexample: a build is requested, then the session is reset
(`handleResetAll` clears the thumbnails), then the build's late response
arrives.  The response is applied, not discarded: the machine enters Playing
with the stale artifact as its playback source.  Neither `handlePlay` nor
`handleResetAll` keeps any generation counter or epoch, so the discard
behavior the claim asserts does not exist in the code. -/
theorem claim8_counterexample :
    (uiRun "" initialAppState
        [UIEvent.clickPlay, UIEvent.clickReset,
          UIEvent.buildOk "/videos/stale.mp4" 99]).isPlaying = true
    ∧ (uiRun "" initialAppState
        [UIEvent.clickPlay, UIEvent.clickReset,
          UIEvent.buildOk "/videos/stale.mp4" 99]).playbackSrc
        = "/videos/stale.mp4?t=99"
    ∧ (uiRun "" initialAppState [UIEvent.clickPlay, UIEvent.clickReset]).thumbnails
        = [] := by
  exact ⟨by decide, by decide, by decide⟩

/-- C8 (amended): a session reset while a build is in flight does not
invalidate it — there is no generation counter or epoch check; the reset
only clears the thumbnail sequence, and the late-arriving build response is
applied normally, entering Playing with the (stale) artifact. -/
theorem claim8_reset_does_not_discard_late_build (apiBase u : String) (ts : Nat)
    (s : AppState) (hpend : s.pendingBuilds = 1) (hu : u ≠ "") :
    (uiStep apiBase s UIEvent.clickReset).thumbnails = []
    ∧ (uiStep apiBase s UIEvent.clickReset).pendingBuilds = s.pendingBuilds
    ∧ (uiStep apiBase (uiStep apiBase s UIEvent.clickReset)
        (UIEvent.buildOk u ts)).isPlaying = true
    ∧ (uiStep apiBase (uiStep apiBase s UIEvent.clickReset)
        (UIEvent.buildOk u ts)).playbackSrc
        = resolveUrl apiBase u ++ "?t=" ++ toString ts := by
  have h2 : uiStep apiBase ({ s with thumbnails := [] } : AppState) (UIEvent.buildOk u ts)
      = { s with
            thumbnails := []
            playbackSrc := resolveUrl apiBase u ++ "?t=" ++ toString ts
            isPlaying := true
            loadingPlayback := false
            pendingBuilds := s.pendingBuilds - 1 } := by
    simp only [uiStep]
    rw [if_neg (by simp [hpend]), if_neg hu]
  exact ⟨rfl, rfl, by rw [show uiStep apiBase s UIEvent.clickReset
      = ({ s with thumbnails := [] } : AppState) from rfl, h2],
    by rw [show uiStep apiBase s UIEvent.clickReset
      = ({ s with thumbnails := [] } : AppState) from rfl, h2]⟩

/-- C8 witness: one click issues the build (one call outstanding), reset,
then the stale response at `Date.now() = 99` is applied. -/
theorem claim8_witness :
    (uiStep "" (uiStep "" (uiStep "" initialAppState UIEvent.clickPlay)
        UIEvent.clickReset) (UIEvent.buildOk "/videos/stale.mp4" 99)).isPlaying = true :=
  (claim8_reset_does_not_discard_late_build "" "/videos/stale.mp4" 99
    (uiStep "" initialAppState UIEvent.clickPlay) (by decide) (by decide)).2.2.1

/-! ## Claim theorems: 30-entry cap (C9) and session parameter (C10) -/

/-- Each single `setThumbnails` update keeps the local sequence within 30
entries. -/
theorem applyUpdate_length_le {s : List Thumb} (up : ThumbUpdate)
    (hs : s.length ≤ 30) : (applyUpdate s up).length ≤ 30 := by
  cases up with
  | optimistic t u =>
    simp only [applyUpdate, captureOptimistic, List.length_take]
    omega
  | confirm tid c r =>
    simp only [applyUpdate, captureConfirm, List.length_take]
    omega
  | undo =>
    simp only [applyUpdate, handleUndo, List.length_drop]
    omega
  | reset => simp [applyUpdate]

/-- C9: starting from any sequence of at most 30 thumbnails (in particular
the empty initial one), every interleaving of capture, upload-confirmation,
undo and reset updates leaves the local view with at most 30 entries — the
two capture updates truncate to the first 30 elements (`slice(0, 30)`) —
while the spec-modelled backend store retains all `K` uploaded frames. -/
theorem claim9_local_view_capped_at_30 (s : List Thumb) (ups : List ThumbUpdate)
    (hs : s.length ≤ 30) :
    (applyUpdates s ups).length ≤ 30
    ∧ (∀ (t u : String) (s' : List Thumb),
        applyUpdate s' (ThumbUpdate.optimistic t u) = ((⟨t, u⟩ : Thumb) :: s').take 30)
    ∧ (∀ (tid c r : String) (s' : List Thumb),
        applyUpdate s' (ThumbUpdate.confirm tid c r)
          = ((⟨c, r⟩ : Thumb) :: s'.filter (fun x => x.id ≠ tid)).take 30)
    ∧ (∀ (fid : Nat → String) (K : Nat), (backendStore fid K).length = K) := by
  refine ⟨?_, fun t u s' => rfl, fun tid c r s' => rfl,
    fun fid K => by simp [backendStore]⟩
  induction ups generalizing s with
  | nil => exact hs
  | cons up ups ih => exact ih _ (applyUpdate_length_le up hs)

/-- C9 witness: forty optimistic captures from an empty session stay capped
at 30 locally. -/
theorem claim9_witness :
    (applyUpdates [] (List.replicate 40 (ThumbUpdate.optimistic "local" "b"))).length ≤ 30 :=
  (claim9_local_view_capped_at_30 []
    (List.replicate 40 (ThumbUpdate.optimistic "local" "b")) (by decide)).1

/-- When the base-plus-path URL carries no query of its own, `withSession`
appends the session id as the first query parameter. -/
theorem withSession_no_query {apiBase path sid : String}
    (h : strContainsChar (apiBase ++ path) '?' = false) :
    withSession apiBase sid path
      = apiBase ++ path ++ "?session=" ++ encodeURIComponent sid := by
  unfold withSession
  simp only [h, Bool.false_eq_true, if_false]
  congr 1
  rw [String.append_assoc]
  congr 1

/-- C10: the session identifier is chosen once per page load (the module
constant `sessionId` in `backend.js`, here the fixed parameter `sid`) and
every backend call made through the API client — `uploadFrame`,
`deleteLastFrame`, `buildVideo`, and the preferred path of `resetAll` —
carries that same identifier as the `session` query parameter of its URL
(the literal API paths contain no `?`, so the hypotheses only exclude a `?`
inside the configured `API_BASE`). -/
theorem claim10_session_param_on_every_call (apiBase sid : String)
    (h1 : strContainsChar (apiBase ++ "/api/frames") '?' = false)
    (h2 : strContainsChar (apiBase ++ "/api/frames/last") '?' = false)
    (h3 : strContainsChar (apiBase ++ "/api/video") '?' = false)
    (h4 : strContainsChar (apiBase ++ "/api/frames/all") '?' = false) :
    uploadFrameUrl apiBase sid
        = apiBase ++ "/api/frames" ++ "?session=" ++ encodeURIComponent sid
    ∧ deleteLastFrameUrl apiBase sid
        = apiBase ++ "/api/frames/last" ++ "?session=" ++ encodeURIComponent sid
    ∧ buildVideoUrl apiBase sid
        = apiBase ++ "/api/video" ++ "?session=" ++ encodeURIComponent sid
    ∧ resetAllPreferredUrl apiBase sid
        = apiBase ++ "/api/frames/all" ++ "?session=" ++ encodeURIComponent sid :=
  ⟨withSession_no_query h1, withSession_no_query h2,
    withSession_no_query h3, withSession_no_query h4⟩

/-- C10 witness: under the proxy configuration (`API_BASE = ""`) with the
page-load session id `k7q9`, all four endpoints carry `?session=k7q9`. -/
theorem claim10_witness :
    uploadFrameUrl "" "k7q9" = "/api/frames?session=k7q9"
    ∧ deleteLastFrameUrl "" "k7q9" = "/api/frames/last?session=k7q9"
    ∧ buildVideoUrl "" "k7q9" = "/api/video?session=k7q9"
    ∧ resetAllPreferredUrl "" "k7q9" = "/api/frames/all?session=k7q9" := by
  have h := claim10_session_param_on_every_call "" "k7q9"
    (by decide) (by decide) (by decide) (by decide)
  exact ⟨h.1.trans (by decide), h.2.1.trans (by decide),
    h.2.2.1.trans (by decide), h.2.2.2.trans (by decide)⟩

/-- C4 witness: a failed upload (`"boom"`) over an empty session keeps the
pending entry at the front and records the message. -/
theorem claim4_witness :
    (⟨"local-1", "blob:a"⟩ : Thumb)
        ∈ (handleCaptureRun "" "local-1" "blob:a" (Except.error "boom") []).1
    ∧ (handleCaptureRun "" "local-1" "blob:a" (Except.error "boom") []).2 ≠ "" :=
  ⟨(claim4_upload_failure_keeps_optimistic "" "local-1" "blob:a" "boom" []).2.2.1,
    (claim4_upload_failure_keeps_optimistic "" "local-1" "blob:a" "boom" []).2.2.2⟩

/-- C5 witness: with the line low since time 0 and stable `HIGH`, a poll at
30 ms accepts the press and prints the command. -/
theorem claim5_witness :
    (debounceStep 30 false ⟨2, "capture", true, true, 0, false⟩).2 = ["capture"] :=
  (claim5_press_event_on_stable_high_to_low ⟨2, "capture", true, true, 0, false⟩
    30 false).2.1.mpr (by decide)

end StopMotion
